import Mathlib

/-!
Shallow embedding of the crawl-and-analyze engine of the
msd-pageimages repository (SEO Image Optimization Checker):
`src/page-images-analyzer.js` (PageImagesAnalyzer: analyzeImages,
detectImageInfo, detectContentTypeFromUrl, analyzeLinks), the
`Actor.main` crawl loop of `main.js`, the `/analyze-multi` crawl loop of
the express server, and the (identical) `calculateDomainAnalysis`
reducers of both call sites.

JavaScript strings are modelled as lists of characters (`JStr`), JS
numbers as `Nat`/`Int`/`ℚ` (with an explicit `JSVal` carrying NaN and
Infinity where an unguarded division can produce them), objects used as
insertion-ordered string-keyed maps as association lists, and the
network as explicit oracle functions supplied to each operation.
-/

/-- Model of a JavaScript string: its list of characters. -/
abbrev JStr := List Char

/-- Embed a Lean string literal as a `JStr`. -/
def jstr (s : String) : JStr := s.data

/-- Model of JS `s.startsWith(p)`. -/
def strStartsWith : JStr → JStr → Bool
  | _, [] => true
  | [], _ :: _ => false
  | c :: s, d :: p => c = d && strStartsWith s p

/-- Model of JS `s.endsWith(p)`. -/
def strEndsWith (s p : JStr) : Bool := strStartsWith s.reverse p.reverse

/-- JS whitespace for `trim` (ASCII part, which is all the analyzer meets). -/
def isJsSpace (c : Char) : Bool := c = ' ' ∨ c = '\t' ∨ c = '\n' ∨ c = '\r'

/-- Model of JS `s.trim()`. -/
def strTrim (s : JStr) : JStr :=
  ((s.dropWhile isJsSpace).reverse.dropWhile isJsSpace).reverse

/-- Model of JS `s.split(c)` for a one-character separator. -/
def chSplit (c : Char) : JStr → List JStr
  | [] => [[]]
  | a :: rest =>
    if a = c then [] :: chSplit c rest
    else
      match chSplit c rest with
      | [] => [[a]]
      | h :: t => (a :: h) :: t

/-- Model of JS `Math.round` on an exact rational: round half toward `+∞`. -/
def jsRound (q : ℚ) : ℤ := ⌊q + 1/2⌋

/-- `Math.round((b / 1000) * 100) / 100`: bytes to kilobytes with two decimals,
as computed throughout the source. -/
def jsKb (b : Nat) : ℚ := (jsRound ((b : ℚ) / 10) : ℚ) / 100

/-- A JS number that may be NaN or an infinity: the value space of the
unguarded percentage computations of `calculateDomainAnalysis`. -/
inductive JSVal where
  | num (q : ℚ)
  | nan
  | inf (pos : Bool)
deriving DecidableEq, Repr

/-- JS division of two nonnegative integers: `0/0` is NaN, `a/0` is Infinity. -/
def natDivJS (a b : Nat) : JSVal :=
  if b = 0 then (if a = 0 then .nan else .inf true) else .num ((a : ℚ) / (b : ℚ))

/-- Multiplication by 100 on a JS number (NaN and Infinity absorb). -/
def jsvMul100 : JSVal → JSVal
  | .num q => .num (q * 100)
  | v => v

/-- `Math.round` on a JS number (`Math.round(NaN)` is NaN,
`Math.round(Infinity)` is Infinity). -/
def jsvRound : JSVal → JSVal
  | .num q => .num (jsRound q)
  | v => v

/-- Whether a JS number is an actual numeric quantity (not NaN/Infinity). -/
def JSVal.isNum : JSVal → Bool
  | .num _ => true
  | _ => false

/-! ### Models of the WHATWG URL builtin, for the operations the source uses

The source calls `new URL(u).origin`, `.hostname`, `.pathname` on URLs it
has already fetched or built, which are well-formed absolute http(s)
URLs.  These are string-level models of the builtin for that shape of
input (scheme `://` host `/` path `?` query `#` fragment); on input with
no `://` they degrade totally instead of throwing. -/

/-- The substring after the first occurrence of `://`, or `none`. -/
def afterScheme : JStr → Option JStr
  | [] => none
  | c :: rest =>
    if strStartsWith (c :: rest) (jstr "://") then some rest.tail.tail
    else afterScheme rest

/-- Model of `new URL(u).origin` for absolute http(s) URLs:
scheme, `://`, and the authority up to the first `/`, `?` or `#`. -/
def originOf (u : JStr) : JStr :=
  match afterScheme u with
  | none => u
  | some rest =>
    let auth := rest.takeWhile (fun c => ¬ (c = '/' ∨ c = '?' ∨ c = '#'))
    (u.takeWhile (· ≠ ':')) ++ jstr "://" ++ auth

/-- Model of `new URL(u).hostname` for absolute http(s) URLs: the
authority, minus any userinfo and port. -/
def hostnameOf (u : JStr) : JStr :=
  match afterScheme u with
  | none => []
  | some rest =>
    let auth := rest.takeWhile (fun c => ¬ (c = '/' ∨ c = '?' ∨ c = '#'))
    let afterUser := if auth.contains '@' then (auth.dropWhile (· ≠ '@')).tail else auth
    afterUser.takeWhile (· ≠ ':')

/-- Model of `new URL(u).pathname` for absolute http(s) URLs: from the
first `/` after the authority up to `?` or `#` (`/` when absent). -/
def pathnameOf (u : JStr) : JStr :=
  match afterScheme u with
  | none => jstr "/"
  | some rest =>
    let p := (rest.dropWhile (fun c => ¬ (c = '/' ∨ c = '?' ∨ c = '#'))).takeWhile
      (fun c => ¬ (c = '?' ∨ c = '#'))
    if p = [] then jstr "/" else p

/-! ### The shared page-result shape

Both crawl loops push, per attempted page, either a full analysis result
(`{...imageData, statusCode}`) or a degraded error record
(`{url, error, statusCode}`); `calculateDomainAnalysis` reads the image
fields back with `|| 0` defaults.  Fields absent on the degraded record
are modelled as `Option`. -/

structure PageResult where
  url : JStr
  error : Option JStr := none
  statusCode : Int
  totalImagesFound : Option Nat := none
  imagesAnalyzed : Option Nat := none
  imagesWithoutAltCount : Option Nat := none
  totalImageSize : Option Nat := none
  imageTypes : Option (List (JStr × Nat)) := none
deriving DecidableEq, Repr

/-- JS truthiness of an optional string field (`r.error` is falsy when
absent or the empty string). -/
def optStrTruthy : Option JStr → Bool
  | none => false
  | some s => s ≠ []

/-! ### `calculateDomainAnalysis` (identical in `main.js` and the express
server; `src/unnamed/part_001` lines 215-290 and `part_002` lines 262-314). -/

/-- `imageTypes[type] = (imageTypes[type] || 0) + c` on an insertion-ordered
string-keyed object, modelled as an association list. -/
def bump (m : List (JStr × Nat)) (k : JStr) (c : Nat) : List (JStr × Nat) :=
  if (m.find? (fun p => p.1 = k)).isSome then
    m.map (fun p => if p.1 = k then (p.1, p.2 + c) else p)
  else m ++ [(k, c)]

/-- Lookup `m[k]` on the object model: `none` is JS `undefined`. -/
def objGet (m : List (JStr × Nat)) (k : JStr) : Option Nat :=
  (m.find? (fun p => p.1 = k)).map (fun p => p.2)

/-- JS `m[a] > m[b]` where either lookup may be `undefined`
(any comparison with `undefined` is false). -/
def jsGtOpt : Option Nat → Option Nat → Bool
  | some a, some b => a > b
  | _, _ => false

/-- `Object.keys(imageTypes).reduce((a, b) => imageTypes[a] > imageTypes[b] ? a : b, 'unknown')`. -/
def mostCommonImageType (m : List (JStr × Nat)) : JStr :=
  (m.map (fun p => p.1)).foldl
    (fun a b => if jsGtOpt (objGet m a) (objGet m b) then a else b) (jstr "unknown")

/-- The merged image-type histogram: for each page with an `imageTypes`
object, `Object.entries` folded into the accumulator with `bump`. -/
def mergedImageTypes (results : List PageResult) : List (JStr × Nat) :=
  results.foldl
    (fun m r =>
      match r.imageTypes with
      | some ts => ts.foldl (fun m' p => bump m' p.1 p.2) m
      | none => m) []

/-- The `optimization_recommendations` sub-object of the domain analysis. -/
structure OptimizationRecommendations where
  images_without_alt : Nat
  images_without_alt_percentage : Int
  needs_alt_text_optimization : Bool
  total_size_kb : ℚ
  average_size_kb : ℚ
deriving DecidableEq, Repr

/-- The `DomainSummary` produced by `calculateDomainAnalysis`.  The two
page-status percentage fields are unguarded divisions in the source and
are typed as `JSVal`; the image-based percentage and average fields are
guarded by ternaries and always plain numbers. -/
structure DomainAnalysis where
  domain_name : JStr
  total_pages_analyzed : Nat
  pages_with_successful_status : Nat
  pages_with_successful_status_percentage : JSVal
  pages_with_error_status : Nat
  pages_with_error_status_percentage : JSVal
  total_images_found : Nat
  total_images_analyzed : Nat
  total_images_without_alt : Nat
  total_images_without_alt_percentage : Int
  total_image_size_bytes : Nat
  total_image_size_kb : ℚ
  average_images_per_page : ℚ
  average_image_size_bytes : Int
  average_image_size_kb : ℚ
  image_types : List (JStr × Nat)
  most_common_image_type : JStr
  optimization_recommendations : OptimizationRecommendations
deriving DecidableEq, Repr

/-- `calculateDomainAnalysis(results)` of `main.js` / the express server
(the two definitions are textually identical apart from logging). -/
def calculateDomainAnalysis (results : List PageResult) : DomainAnalysis :=
  let firstUrl := match results.head? with | some r => r.url | none => []
  let domain := if firstUrl = [] then [] else hostnameOf firstUrl
  let totalPages := results.length
  let successfulPages := (results.filter
    (fun r => !optStrTruthy r.error && decide (200 ≤ r.statusCode) && decide (r.statusCode < 300))).length
  let errorPages := (results.filter
    (fun r => optStrTruthy r.error || decide (400 ≤ r.statusCode))).length
  let totalImagesFound : Nat := results.foldl (fun s r => s + r.totalImagesFound.getD 0) 0
  let totalImagesAnalyzed : Nat := results.foldl (fun s r => s + r.imagesAnalyzed.getD 0) 0
  let totalImagesWithoutAlt : Nat := results.foldl (fun s r => s + r.imagesWithoutAltCount.getD 0) 0
  let totalImageSize : Nat := results.foldl (fun s r => s + r.totalImageSize.getD 0) 0
  let imageTypes := mergedImageTypes results
  let averageImagesPerPage : ℚ :=
    if totalPages > 0 then (jsRound ((totalImagesFound : ℚ) / totalPages * 100) : ℚ) / 100 else 0
  let averageImageSize : Int :=
    if totalImagesAnalyzed > 0 then jsRound ((totalImageSize : ℚ) / totalImagesAnalyzed) else 0
  let imagesWithoutAltPercentage : Int :=
    if totalImagesAnalyzed > 0 then
      jsRound ((totalImagesWithoutAlt : ℚ) / totalImagesAnalyzed * 100) else 0
  { domain_name := domain
    total_pages_analyzed := totalPages
    pages_with_successful_status := successfulPages
    pages_with_successful_status_percentage :=
      jsvRound (jsvMul100 (natDivJS successfulPages totalPages))
    pages_with_error_status := errorPages
    pages_with_error_status_percentage :=
      jsvRound (jsvMul100 (natDivJS errorPages totalPages))
    total_images_found := totalImagesFound
    total_images_analyzed := totalImagesAnalyzed
    total_images_without_alt := totalImagesWithoutAlt
    total_images_without_alt_percentage := imagesWithoutAltPercentage
    total_image_size_bytes := totalImageSize
    total_image_size_kb := jsKb totalImageSize
    average_images_per_page := averageImagesPerPage
    average_image_size_bytes := averageImageSize
    average_image_size_kb := jsKb averageImageSize.toNat
    image_types := imageTypes
    most_common_image_type := mostCommonImageType imageTypes
    optimization_recommendations :=
      { images_without_alt := totalImagesWithoutAlt
        images_without_alt_percentage := imagesWithoutAltPercentage
        needs_alt_text_optimization := totalImagesWithoutAlt > 0
        total_size_kb := jsKb totalImageSize
        average_size_kb := jsKb averageImageSize.toNat } }

/-! ### The crawl loops

`Actor.main` (`src/unnamed/part_001` lines 58-176) and the
`/analyze-multi` handler (`src/unnamed/part_002` lines 135-232).  The
body of each iteration's `try` block — `axios.get` plus
`pageImagesAnalyzer.analyzePage` — is a network-dependent effect and is
modelled as an oracle `world` mapping the fetched URL to its outcome:
either the analysis data with the HTTP status, or a thrown error
carrying an optional HTTP response status and an error code.  The URL
normalizer (`url-normalizer.js`, required by both entry points but not
part of the analyzed sources) is a parameter of the environment. -/

/-- The fields of the `analyzePage` output that the crawl loops and the
aggregator consume. -/
structure PageData where
  totalImagesFound : Nat := 0
  imagesAnalyzed : Nat := 0
  imagesWithoutAltCount : Nat := 0
  totalImageSize : Nat := 0
  imageTypes : List (JStr × Nat) := []
  internalLinks : List JStr := []
deriving DecidableEq, Repr

/-- The `error.code` values the `Actor.main` error branch distinguishes. -/
inductive AxiosErrCode where
  | ENOTFOUND
  | ECONNREFUSED
  | ETIMEDOUT
  | ECONNRESET
  | otherCode
deriving DecidableEq, Repr

/-- Outcome of one iteration's `try` body: success with the HTTP status
(axios resolves for status < 500) and the analysis data, or a thrown
error with `error.response?.status`, `error.code`, and `error.message`. -/
inductive FetchOutcome where
  | ok (status : Int) (page : PageData)
  | err (responseStatus : Option Int) (code : AxiosErrCode) (message : JStr)
deriving DecidableEq, Repr

/-- Environment of one crawl invocation: the network/analysis oracle, the
URL normalizer, relative-link resolution (`new URL(link, base).href`,
`none` models a throw), and the crawl inputs. -/
structure CrawlEnv where
  world : JStr → FetchOutcome
  normalize : JStr → JStr
  resolveRel : JStr → JStr → Option JStr
  crawlUrls : Bool
  maxPages : Nat

/-- `const effectiveMaxPages = crawlUrls ? maxPages : 1;` (`Actor.main`). -/
def CrawlEnv.effectiveMaxPages (env : CrawlEnv) : Nat :=
  if env.crawlUrls then env.maxPages else 1

/-- Crawl state: the pushed results, the `visitedUrls` set, the
`urlsToProcess` FIFO queue, `processedCount`, and `pagesAnalyzedCount`;
`fetched` is a ghost trace of every URL on which a fetch was attempted,
in order. -/
structure CrawlState where
  results : List PageResult := []
  visited : List JStr := []
  queue : List JStr := []
  processedCount : Nat := 0
  pagesAnalyzedCount : Nat := 0
  fetched : List JStr := []
deriving DecidableEq, Repr

/-- The result pushed on a successful analysis: `{...imageData, statusCode}`. -/
def successResult (url : JStr) (status : Int) (p : PageData) : PageResult :=
  { url := url
    error := none
    statusCode := status
    totalImagesFound := some p.totalImagesFound
    imagesAnalyzed := some p.imagesAnalyzed
    imagesWithoutAltCount := some p.imagesWithoutAltCount
    totalImageSize := some p.totalImageSize
    imageTypes := some p.imageTypes }

/-- Status classification of the `Actor.main` error branch: the response
status when present, else 404 for DNS/connection-refused, 408 for
timeout, 503 for connection reset, 500 otherwise. -/
def classifyError (responseStatus : Option Int) (code : AxiosErrCode) : Int :=
  match responseStatus with
  | some s => s
  | none =>
    match code with
    | .ENOTFOUND => 404
    | .ECONNREFUSED => 404
    | .ETIMEDOUT => 408
    | .ECONNRESET => 503
    | .otherCode => 500

/-- The degraded result the `Actor.main` error branch pushes:
`{url, error, statusCode}`. -/
def errorResultActor (url : JStr) (responseStatus : Option Int) (code : AxiosErrCode)
    (message : JStr) : PageResult :=
  { url := url, error := some message, statusCode := classifyError responseStatus code }

/-- One discovered link of the `Actor.main` enqueue block (lines
122-147): resolve it (absolute / origin-relative / relative; a
resolution throw skips the link), normalize it, and append it to the
queue only when it starts with the page's origin, is not yet visited,
and is not already queued. -/
def enqueueLink (env : CrawlEnv) (baseDomain baseUrl : JStr) (s : CrawlState)
    (link : JStr) : CrawlState :=
  let fullUrl? :=
    if strStartsWith link (jstr "http") then some link
    else if strStartsWith link (jstr "/") then some (baseDomain ++ link)
    else env.resolveRel link baseUrl
  match fullUrl? with
  | none => s
  | some fullUrl =>
    let normalizedLink := env.normalize fullUrl
    if strStartsWith normalizedLink baseDomain
        ∧ normalizedLink ∉ s.visited ∧ normalizedLink ∉ s.queue then
      { s with queue := s.queue ++ [normalizedLink] }
    else s

/-- Link enqueueing of `Actor.main` (lines 119-148), iterating
`enqueueLink` over the page's internal links with
`baseDomain = new URL(normalizedUrl).origin`. -/
def enqueueLinks (env : CrawlEnv) (baseUrl : JStr) (st : CrawlState)
    (links : List JStr) : CrawlState :=
  links.foldl (enqueueLink env (originOf baseUrl) baseUrl) st

/-- The `Actor.main` crawl loop, fuel-indexed: each unit of fuel allows
one iteration of `while (urlsToProcess.length > 0 && processedCount <
effectiveMaxPages)`.  `processedCount` is incremented at the end of the
`try` block only; the `catch` branch pushes a degraded result without
incrementing it. -/
def actorCrawlLoop (env : CrawlEnv) : Nat → CrawlState → CrawlState
  | 0, st => st
  | fuel + 1, st =>
    match st.queue with
    | [] => st
    | u :: rest =>
      if st.processedCount < env.effectiveMaxPages then
        let st₁ := { st with queue := rest }
        if u ∈ st.visited then actorCrawlLoop env fuel st₁
        else
          let st₂ := { st₁ with visited := st₁.visited ++ [u], fetched := st₁.fetched ++ [u] }
          match env.world u with
          | .ok status page =>
            let st₃ := { st₂ with
              results := st₂.results ++ [successResult u status page]
              pagesAnalyzedCount := st₂.pagesAnalyzedCount + 1 }
            let st₄ :=
              if env.crawlUrls ∧ page.internalLinks ≠ [] then
                enqueueLinks env u st₃ page.internalLinks
              else st₃
            actorCrawlLoop env fuel { st₄ with processedCount := st₄.processedCount + 1 }
          | .err responseStatus code message =>
            actorCrawlLoop env fuel
              { st₂ with results := st₂.results ++ [errorResultActor u responseStatus code message] }
      else st

/-- Initial crawl state of `Actor.main`: the queue holds the normalized
start URL (`urlsToProcess = [urlNormalizer.normalize(startUrl)]`). -/
def actorInit (env : CrawlEnv) (startUrl : JStr) : CrawlState :=
  { queue := [env.normalize startUrl] }

/-- The degraded result the `/analyze-multi` error branch pushes: only
`error.response?.status` is consulted, 500 otherwise. -/
def errorResultMulti (url : JStr) (responseStatus : Option Int) (message : JStr) : PageResult :=
  { url := url, error := some message, statusCode := responseStatus.getD 500 }

/-- The `/analyze-multi` crawl loop.  Differences from `Actor.main`: the
queue is seeded with the raw start URL, the dequeued URL is normalized
only after the fetch (the visited set holds the raw URL), the page cap is
`maxPages` directly, and the error branch has no error-code
classification. -/
def multiCrawlLoop (env : CrawlEnv) : Nat → CrawlState → CrawlState
  | 0, st => st
  | fuel + 1, st =>
    match st.queue with
    | [] => st
    | u :: rest =>
      if st.processedCount < env.maxPages then
        let st₁ := { st with queue := rest }
        if u ∈ st.visited then multiCrawlLoop env fuel st₁
        else
          let st₂ := { st₁ with visited := st₁.visited ++ [u], fetched := st₁.fetched ++ [u] }
          match env.world u with
          | .ok status page =>
            let normalizedUrl := env.normalize u
            let st₃ := { st₂ with
              results := st₂.results ++ [successResult normalizedUrl status page] }
            let st₄ :=
              if env.crawlUrls ∧ page.internalLinks ≠ [] then
                enqueueLinks env normalizedUrl st₃ page.internalLinks
              else st₃
            multiCrawlLoop env fuel { st₄ with processedCount := st₄.processedCount + 1 }
          | .err responseStatus _ message =>
            multiCrawlLoop env fuel
              { st₂ with results := st₂.results ++ [errorResultMulti u responseStatus message] }
      else st

/-- Initial crawl state of `/analyze-multi`: the queue holds the raw
start URL (`urlsToProcess = [startUrl]`, no normalization). -/
def multiInit (startUrl : JStr) : CrawlState :=
  { queue := [startUrl] }

/-! ### The page analyzer (`src/page-images-analyzer.js`)

HTML parsing is an external capability: the `$('img[src]')` /
`a[href]` selections are supplied as element lists.  The per-image HEAD
request (`axios.head`) is an oracle `head`; relative URL resolution
(`new URL(src, baseUrl).href`) is a parameter `resolveRel`
(`none` models a throw, which the loop's outer `catch` turns into a
skip). -/

/-- An `<img>` element matched by `$('img[src]')`: the `src` attribute is
present (possibly empty); the other attributes may be absent. -/
structure ImgElement where
  src : JStr
  alt : Option JStr := none
  title : Option JStr := none
  width : Option JStr := none
  height : Option JStr := none
deriving DecidableEq, Repr

/-- The per-image analysis object built by `analyzeImages`. -/
structure ImageRecord where
  imageUrl : JStr
  imageIndex : Nat
  alt : JStr
  title : JStr
  width : JStr
  height : JStr
  hasAlt : Bool
  hasTitle : Bool
  contentType : JStr
  sizeInBytes : Nat
  sizeInKb : ℚ
  statusCode : Int
  error : Option JStr := none
deriving DecidableEq, Repr

/-- An `{imageUrl, imageIndex}` entry of `imagesWithoutAlt`. -/
structure ImgRef where
  imageUrl : JStr
  imageIndex : Nat
deriving DecidableEq, Repr

/-- What `detectImageInfo` returns when it does not throw. -/
structure ImageInfo where
  contentType : JStr
  sizeInBytes : Nat
  sizeInKb : ℚ
  statusCode : Int
deriving DecidableEq, Repr

/-- Outcome of the per-image `axios.head` call (`validateStatus: status <
500`): resolved with the status and the `content-type` /
`content-length` headers, or rejected with `error.response?.status` (the
status when it was `≥ 500`, `none` on a network error or timeout) and a
message. -/
inductive HeadOutcome where
  | ok (status : Int) (contentType : Option JStr) (contentLength : Option Nat)
  | err (responseStatus : Option Int) (message : JStr)
deriving DecidableEq, Repr

/-- `detectContentTypeFromUrl(imageUrl)`: extension-based sniffing on the
lower-cased pathname. -/
def detectContentTypeFromUrl (imageUrl : JStr) : JStr :=
  let pathname := (pathnameOf imageUrl).map Char.toLower
  if strEndsWith pathname (jstr ".jpg") ∨ strEndsWith pathname (jstr ".jpeg") then
    jstr "image/jpeg"
  else if strEndsWith pathname (jstr ".png") then jstr "image/png"
  else if strEndsWith pathname (jstr ".gif") then jstr "image/gif"
  else if strEndsWith pathname (jstr ".webp") then jstr "image/webp"
  else if strEndsWith pathname (jstr ".svg") then jstr "image/svg+xml"
  else if strEndsWith pathname (jstr ".bmp") then jstr "image/bmp"
  else if strEndsWith pathname (jstr ".ico") then jstr "image/x-icon"
  else if strEndsWith pathname (jstr ".tiff") ∨ strEndsWith pathname (jstr ".tif") then
    jstr "image/tiff"
  else jstr "image/unknown"

/-- `header.match(/data:([^;]+)/)`: the first position where `data:` is
followed by at least one non-`;` character, capturing greedily up to the
next `;`. -/
def regexDataMime : JStr → Option JStr
  | [] => none
  | c :: rest =>
    let here := c :: rest
    if strStartsWith here (jstr "data:") ∧ ((here.drop 5).takeWhile (· ≠ ';')) ≠ [] then
      some ((here.drop 5).takeWhile (· ≠ ';'))
    else regexDataMime rest

/-- `detectImageInfo(imageUrl, userAgent)`.  A data URI is decoded
locally (`[header, data] = imageUrl.split(',')`; reading `data.length`
throws when the URI has no comma); otherwise the `head` oracle is
consulted, and its rejection is handled inside this function, returning
a fallback record with no error message. -/
def detectImageInfo (head : JStr → HeadOutcome) (imageUrl : JStr) : Except JStr ImageInfo :=
  if strStartsWith imageUrl (jstr "data:") then
    let parts := chSplit ',' imageUrl
    let header := parts.headD []
    match parts.get? 1 with
    | none => .error (jstr "Cannot read properties of undefined")
    | some d =>
      let contentType := (regexDataMime header).getD (jstr "image/unknown")
      let sizeInBytes := (jsRound (((d.length : ℚ) * 3) / 4)).toNat
      .ok { contentType := contentType, sizeInBytes := sizeInBytes,
            sizeInKb := jsKb sizeInBytes, statusCode := 200 }
  else
    match head imageUrl with
    | .ok status contentType contentLength =>
      let ct :=
        match contentType with
        | some c => if c = [] then detectContentTypeFromUrl imageUrl else c
        | none => detectContentTypeFromUrl imageUrl
      let len := contentLength.getD 0
      .ok { contentType := ct, sizeInBytes := len,
            sizeInKb := if len > 0 then jsKb len else 0, statusCode := status }
    | .err responseStatus _ =>
      .ok { contentType := detectContentTypeFromUrl imageUrl, sizeInBytes := 0,
            sizeInKb := 0, statusCode := responseStatus.getD 500 }

/-- `contentType.split('/')[1] || 'unknown'`. -/
def subtypeOf (contentType : JStr) : JStr :=
  match (chSplit '/' contentType).get? 1 with
  | some t => if t = [] then jstr "unknown" else t
  | none => jstr "unknown"

/-- `src` → `fullUrl` resolution shared by images and links: absolute if
it starts with `http`, origin-relative if it starts with `/`, otherwise
`new URL(src, baseUrl).href`. -/
def resolveFullUrl (resolveRel : JStr → JStr → Option JStr) (baseUrl src : JStr) :
    Option JStr :=
  if strStartsWith src (jstr "http") then some src
  else if strStartsWith src (jstr "/") then some (originOf baseUrl ++ src)
  else resolveRel src baseUrl

/-- Accumulator of the `analyzeImages` loop. -/
structure ImagesState where
  images : List ImageRecord := []
  imagesWithoutAlt : List ImgRef := []
  totalImageSize : Nat := 0
  imageTypes : List (JStr × Nat) := []
deriving DecidableEq, Repr

/-- One iteration of the `analyzeImages` loop at index `i` (0-based):
skip an empty `src` (`if (!src) continue`), resolve the full URL (a
resolution failure is caught and skips the image), build the image
object, enrich it (size analysis via `detectImageInfo`, whose throw is
caught and recorded on the record, or extension sniffing), push it, and
track it in `imagesWithoutAlt` when alt analysis is on and the alt text
is blank. -/
def processImage (resolveRel : JStr → JStr → Option JStr) (head : JStr → HeadOutcome)
    (baseUrl : JStr) (includeImageSizeAnalysis includeAltTextAnalysis : Bool)
    (st : ImagesState) (i : Nat) (e : ImgElement) : ImagesState :=
  if e.src = [] then st
  else
    match resolveFullUrl resolveRel baseUrl e.src with
    | none => st
    | some fullUrl =>
      let alt := e.alt.getD []
      let title := e.title.getD []
      let base : ImageRecord :=
        { imageUrl := fullUrl
          imageIndex := i + 1
          alt := alt
          title := title
          width := e.width.getD []
          height := e.height.getD []
          hasAlt := alt ≠ [] && strTrim alt ≠ []
          hasTitle := title ≠ [] && strTrim title ≠ []
          contentType := jstr "unknown"
          sizeInBytes := 0
          sizeInKb := 0
          statusCode := 200 }
      let noAltEntry : List ImgRef :=
        if includeAltTextAnalysis ∧ (alt = [] ∨ strTrim alt = []) then
          [{ imageUrl := fullUrl, imageIndex := i + 1 }]
        else []
      if includeImageSizeAnalysis then
        match detectImageInfo head fullUrl with
        | .ok info =>
          { images := st.images ++ [{ base with
              contentType := info.contentType
              sizeInBytes := info.sizeInBytes
              sizeInKb := info.sizeInKb
              statusCode := info.statusCode }]
            imagesWithoutAlt := st.imagesWithoutAlt ++ noAltEntry
            totalImageSize := st.totalImageSize + info.sizeInBytes
            imageTypes := bump st.imageTypes (subtypeOf info.contentType) 1 }
        | .error msg =>
          { st with
            images := st.images ++ [{ base with statusCode := 500, error := some msg }]
            imagesWithoutAlt := st.imagesWithoutAlt ++ noAltEntry }
      else
        let contentType := detectContentTypeFromUrl fullUrl
        { st with
          images := st.images ++ [{ base with contentType := contentType }]
          imagesWithoutAlt := st.imagesWithoutAlt ++ noAltEntry
          imageTypes := bump st.imageTypes (subtypeOf contentType) 1 }

/-- The aggregate record `analyzeImages` returns. -/
structure ImagesAnalysis where
  totalImagesFound : Nat
  imagesAnalyzed : Nat
  images : List ImageRecord
  imagesWithoutAlt : List ImgRef
  imagesWithoutAltCount : Nat
  imagesWithAltCount : Int
  averageImageSize : Int
  totalImageSize : Nat
  imageTypes : List (JStr × Nat)
deriving DecidableEq, Repr

/-- `analyzeImages($, baseUrl, maxImagesPerPage, ...)`: `elems` is the
`$('img[src]')` selection in document order; `maxImagesPerPage = -1`
means analyze all, otherwise `Math.min` with the count found. -/
def analyzeImages (resolveRel : JStr → JStr → Option JStr) (head : JStr → HeadOutcome)
    (elems : List ImgElement) (baseUrl : JStr) (maxImagesPerPage : Int)
    (includeImageSizeAnalysis includeAltTextAnalysis : Bool) : ImagesAnalysis :=
  let totalImagesFound := elems.length
  let imagesToAnalyze : Nat :=
    if maxImagesPerPage = -1 then elems.length
    else (min (elems.length : Int) maxImagesPerPage).toNat
  let st := (elems.take imagesToAnalyze).enum.foldl
    (fun s p => processImage resolveRel head baseUrl
      includeImageSizeAnalysis includeAltTextAnalysis s p.1 p.2) {}
  { totalImagesFound := totalImagesFound
    imagesAnalyzed := st.images.length
    images := st.images
    imagesWithoutAlt := st.imagesWithoutAlt
    imagesWithoutAltCount := st.imagesWithoutAlt.length
    imagesWithAltCount := (st.images.length : Int) - st.imagesWithoutAlt.length
    averageImageSize :=
      if st.images.length > 0 then
        jsRound ((st.totalImageSize : ℚ) / st.images.length)
      else 0
    totalImageSize := st.totalImageSize
    imageTypes := st.imageTypes }

/-- An `<a>` element matched by `$('a[href]')`. -/
structure AnchorEl where
  href : JStr
  text : JStr := []
deriving DecidableEq, Repr

/-- An `internalLinks` entry of `analyzeLinks`. -/
structure LinkEntry where
  url : JStr
  text : JStr
deriving DecidableEq, Repr

/-- `analyzeLinks($, baseUrl)` (lines 258-293): resolve each anchor's
href like image sources, and retain it iff the resolved URL starts with
the page's origin (`fullUrl.startsWith(baseDomain)` — a string-prefix
test, not a host comparison). -/
def analyzeLinks (resolveRel : JStr → JStr → Option JStr) (anchors : List AnchorEl)
    (baseUrl : JStr) : List LinkEntry :=
  let baseDomain := originOf baseUrl
  anchors.foldl
    (fun acc a =>
      if a.href = [] then acc
      else
        match resolveFullUrl resolveRel baseUrl a.href with
        | none => acc
        | some fullUrl =>
          if strStartsWith fullUrl baseDomain then
            acc ++ [{ url := fullUrl, text := strTrim a.text }]
          else acc) []

/-! ### Specification-side characterizations used for comparison -/

/-- The entry of a histogram that a left-to-right reduction with
"replace on `≥`" settles on: the entry with the maximal count, and among
tied maximal counts the one encountered **last** in iteration order. -/
def lastTiedMax : List (JStr × Nat) → Option (JStr × Nat)
  | [] => none
  | q :: t =>
    match lastTiedMax t with
    | none => some q
    | some r => if q.2 > r.2 then some q else some r

/-- The key of `lastTiedMax`, with the `'unknown'` seed of the source's
`reduce` for an empty histogram. -/
def lastTiedMaxKey (m : List (JStr × Nat)) : JStr :=
  match lastTiedMax m with
  | some p => p.1
  | none => jstr "unknown"

/-! ### Helper lemmas -/

theorem foldl_add_map {α : Type} (g : α → Nat) :
    ∀ (l : List α) (init : Nat),
      l.foldl (fun s r => s + g r) init = init + (l.map g).sum := by
  intro l
  induction l with
  | nil => simp
  | cons a t ih => intro init; simp [ih, Nat.add_assoc]

/-- C6: for every ordered sequence of PageResult (degraded error results
included, contributing 0), the DomainSummary's `total_images_analyzed`
is the sum of the pages' `imagesAnalyzed` and `total_images_without_alt`
is the sum of the pages' `imagesWithoutAltCount`. -/
theorem domain_totals_are_sums (results : List PageResult) :
    (calculateDomainAnalysis results).total_images_analyzed
      = (results.map (fun r => r.imagesAnalyzed.getD 0)).sum
    ∧ (calculateDomainAnalysis results).total_images_without_alt
      = (results.map (fun r => r.imagesWithoutAltCount.getD 0)).sum := by
  constructor <;> simp [calculateDomainAnalysis, foldl_add_map]

/-- C3 counterexample: on the empty page sequence (denominator
`totalPages = 0`) the page-status percentage fields are NaN, not 0: the
source divides by `totalPages` without a guard. -/
theorem domain_percentages_nan_on_empty :
    (calculateDomainAnalysis []).pages_with_successful_status_percentage = JSVal.nan
    ∧ (calculateDomainAnalysis []).pages_with_error_status_percentage = JSVal.nan
    ∧ (calculateDomainAnalysis []).pages_with_successful_status_percentage ≠ JSVal.num 0 := by
  refine ⟨?_, ?_, ?_⟩ <;> decide

/-- C3 amended: the image-based percentage and average fields are
guarded and yield 0 when their denominator is 0, and the page-status
percentage fields are numeric whenever the page sequence is nonempty;
only on the empty sequence are they NaN. -/
theorem domain_percentage_guards (results : List PageResult) (h : results ≠ []) :
    ((calculateDomainAnalysis results).pages_with_successful_status_percentage).isNum = true
    ∧ ((calculateDomainAnalysis results).pages_with_error_status_percentage).isNum = true
    ∧ ((calculateDomainAnalysis results).total_images_analyzed = 0 →
        (calculateDomainAnalysis results).total_images_without_alt_percentage = 0
        ∧ (calculateDomainAnalysis results).average_image_size_bytes = 0) := by
  have hl : results.length ≠ 0 := fun hh => h (List.length_eq_zero.mp hh)
  refine ⟨?_, ?_, ?_⟩
  · simp [calculateDomainAnalysis, natDivJS, hl, jsvMul100, jsvRound, JSVal.isNum]
  · simp [calculateDomainAnalysis, natDivJS, hl, jsvMul100, jsvRound, JSVal.isNum]
  · intro h0
    simp only [calculateDomainAnalysis] at h0 ⊢
    rw [h0]
    simp

theorem domain_percentage_guards_witness :
    ((calculateDomainAnalysis [{ url := jstr "http://s.com/", statusCode := 200 }]).pages_with_successful_status_percentage).isNum = true := by
  exact (domain_percentage_guards [{ url := jstr "http://s.com/", statusCode := 200 }]
    (by simp)).1

/-! ### Analysis of the `most_common_image_type` reduction -/

/-- The value-carrying form of one `reduce` step: compare the carried
count with the next entry's count, replacing the accumulator unless it
is strictly greater. -/
def mcStep (acc : JStr × Option Nat) (p : JStr × Nat) : JStr × Option Nat :=
  if jsGtOpt acc.2 (some p.2) then acc else (p.1, some p.2)

theorem objGet_eq_some_of_mem_nodup {m : List (JStr × Nat)} {k : JStr} {c : Nat}
    (hN : (m.map Prod.fst).Nodup) (hmem : (k, c) ∈ m) : objGet m k = some c := by
  induction m with
  | nil => cases hmem
  | cons q t ih =>
    simp only [List.map_cons, List.nodup_cons] at hN
    rcases List.mem_cons.mp hmem with h | h
    · cases h
      simp [objGet, List.find?]
    · by_cases hk : q.1 = k
      · exfalso
        apply hN.1
        rw [hk]
        exact List.mem_map.mpr ⟨(k, c), h, rfl⟩
      · have := ih hN.2 h
        simpa [objGet, List.find?, hk] using this

theorem mem_of_objGet_eq_some {m : List (JStr × Nat)} {k : JStr} {c : Nat}
    (h : objGet m k = some c) : (k, c) ∈ m := by
  induction m with
  | nil => simp [objGet] at h
  | cons q t ih =>
    by_cases hk : q.1 = k
    · simp only [objGet, List.find?, hk] at h
      have hq : q = (k, c) := by
        cases q with
        | mk k' c' =>
          simp_all
      rw [hq]
      exact List.mem_cons_self _ _
    · have hstep : objGet (q :: t) k = objGet t k := by
        simp [objGet, List.find?, hk]
      rw [hstep] at h
      exact List.mem_cons_of_mem _ (ih h)

/-- Rewriting the key-indexed `reduce` of the source to the
value-carrying fold, valid when the histogram's keys are distinct. -/
theorem keyFold_eq_mcStepFold {m : List (JStr × Nat)}
    (hN : (m.map Prod.fst).Nodup) :
    ∀ (suf : List (JStr × Nat)), (∀ p ∈ suf, p ∈ m) → ∀ (a : JStr),
      (suf.map Prod.fst).foldl
          (fun x b => if jsGtOpt (objGet m x) (objGet m b) then x else b) a
        = (suf.foldl mcStep (a, objGet m a)).1 := by
  intro suf
  induction suf with
  | nil => intro _ a; simp
  | cons p t ih =>
    intro hs a
    have hp : objGet m p.1 = some p.2 :=
      objGet_eq_some_of_mem_nodup hN (hs p (List.mem_cons_self p t))
    have ht : ∀ q ∈ t, q ∈ m := fun q hq => hs q (List.mem_cons_of_mem p hq)
    simp only [List.map_cons, List.foldl_cons, mcStep, hp]
    by_cases hgt : jsGtOpt (objGet m a) (some p.2) = true
    · simp only [hgt, if_true]
      exact ih ht a
    · simp only [Bool.not_eq_true] at hgt
      simp only [hgt, Bool.false_eq_true, if_false]
      have := ih ht p.1
      rw [hp] at this
      exact this

theorem lastTiedMax_mem {m : List (JStr × Nat)} {r : JStr × Nat}
    (h : lastTiedMax m = some r) : r ∈ m := by
  induction m with
  | nil => simp [lastTiedMax] at h
  | cons q t ih =>
    simp only [lastTiedMax] at h
    cases ht : lastTiedMax t with
    | none => rw [ht] at h; cases h; exact List.mem_cons_self _ _
    | some r' =>
      rw [ht] at h
      by_cases hq : q.2 > r'.2
      · simp only [hq, if_true] at h
        cases h
        exact List.mem_cons_self _ _
      · simp only [hq, if_false] at h
        cases h
        exact List.mem_cons_of_mem _ (ih ht)

/-- What the value-carrying fold computes: either the seed survives
because it strictly beats every entry, or the fold lands on the last
maximal entry of the list. -/
theorem mcStep_fold_spec (l : List (JStr × Nat)) :
    ∀ (s : JStr) (o : Option Nat),
      (l.foldl mcStep (s, o) = (s, o) ∧ ∀ p ∈ l, jsGtOpt o (some p.2) = true)
      ∨ (∃ r, lastTiedMax l = some r ∧ l.foldl mcStep (s, o) = (r.1, some r.2)
          ∧ ∀ x, o = some x → x ≤ r.2) := by
  induction l with
  | nil => intro s o; left; simp
  | cons q t ih =>
    intro s o
    by_cases hbeat : jsGtOpt o (some q.2) = true
    · -- the seed strictly beats `q`, so the accumulator is unchanged
      have hstep : mcStep (s, o) q = (s, o) := by simp [mcStep, hbeat]
      rcases ih s o with ⟨hfold, hall⟩ | ⟨r, hlast, hfold, hbound⟩
      · left
        refine ⟨?_, ?_⟩
        · simp only [List.foldl_cons, hstep]; exact hfold
        · intro p hp
          rcases List.mem_cons.mp hp with h | h
          · cases h; exact hbeat
          · exact hall p h
      · right
        have hq2 : q.2 < r.2 := by
          cases o with
          | none => simp [jsGtOpt] at hbeat
          | some x =>
            have hx : q.2 < x := by simpa [jsGtOpt] using hbeat
            exact lt_of_lt_of_le hx (hbound x rfl)
        refine ⟨r, ?_, ?_, hbound⟩
        · simp only [lastTiedMax, hlast]
          have : ¬ q.2 > r.2 := not_lt_of_gt hq2
          simp [this]
        · simp only [List.foldl_cons, hstep]; exact hfold
    · -- the accumulator is replaced by `q`
      have hstep : mcStep (s, o) q = (q.1, some q.2) := by
        simp [mcStep, hbeat]
      have hole : ∀ x, o = some x → x ≤ q.2 := by
        intro x hx
        subst hx
        by_contra hgt
        exact hbeat (by simpa [jsGtOpt] using Nat.lt_of_not_le hgt)
      rcases ih q.1 (some q.2) with ⟨hfold, hall⟩ | ⟨r, hlast, hfold, hbound⟩
      · -- `q` beats everything after it: `q` is the last maximal entry
        right
        refine ⟨q, ?_, ?_, hole⟩
        · cases ht : lastTiedMax t with
          | none => simp [lastTiedMax, ht]
          | some r' =>
            have hr' : q.2 > r'.2 := by
              have := hall r' (lastTiedMax_mem ht)
              simpa [jsGtOpt] using this
            simp [lastTiedMax, ht, hr']
        · simp only [List.foldl_cons, hstep]; exact hfold
      · -- the fold settles on the last maximal entry of the tail
        right
        have hq2 : q.2 ≤ r.2 := hbound q.2 rfl
        refine ⟨r, ?_, ?_, ?_⟩
        · simp only [lastTiedMax, hlast]
          have : ¬ q.2 > r.2 := not_lt_of_ge hq2
          simp [this]
        · simp only [List.foldl_cons, hstep]; exact hfold
        · intro x hx
          exact le_trans (hole x hx) hq2

theorem bump_keys_nodup {m : List (JStr × Nat)} (hN : (m.map Prod.fst).Nodup)
    (k : JStr) (c : Nat) : ((bump m k c).map Prod.fst).Nodup := by
  by_cases hf : (m.find? (fun p => p.1 = k)).isSome
  · have hb : bump m k c = m.map (fun p => if p.1 = k then (p.1, p.2 + c) else p) := by
      unfold bump
      simp [hf]
    have hkeys : (m.map (fun p => if p.1 = k then (p.1, p.2 + c) else p)).map Prod.fst
        = m.map Prod.fst := by
      rw [List.map_map]
      apply List.map_congr_left
      intro p _
      by_cases hp : p.1 = k <;> simp [hp]
    rw [hb, hkeys]
    exact hN
  · have hnone : m.find? (fun p => decide (p.1 = k)) = none :=
      Option.not_isSome_iff_eq_none.mp hf
    have hb : bump m k c = m ++ [(k, c)] := by
      unfold bump
      simp [hnone]
    have hk : k ∉ m.map Prod.fst := by
      intro hmem
      rcases List.mem_map.mp hmem with ⟨p, hp, hpk⟩
      have := List.find?_eq_none.mp hnone p hp
      simp [hpk] at this
    rw [hb, List.map_append]
    exact List.Nodup.append hN (List.nodup_singleton k)
      (by simpa [List.disjoint_singleton] using hk)

theorem foldl_bump_keys_nodup (ts : List (JStr × Nat)) :
    ∀ m, (m.map Prod.fst).Nodup →
      ((ts.foldl (fun m' p => bump m' p.1 p.2) m).map Prod.fst).Nodup := by
  induction ts with
  | nil => intro m h; exact h
  | cons p t ih => intro m h; exact ih _ (bump_keys_nodup h p.1 p.2)

theorem foldl_merge_keys_nodup (results : List PageResult) :
    ∀ m : List (JStr × Nat), (m.map Prod.fst).Nodup →
      ((results.foldl
        (fun (m : List (JStr × Nat)) (r : PageResult) =>
          match r.imageTypes with
          | some ts => ts.foldl (fun m' p => bump m' p.1 p.2) m
          | none => m) m).map Prod.fst).Nodup := by
  induction results with
  | nil => intro m h; exact h
  | cons r t ih =>
    intro m h
    simp only [List.foldl_cons]
    cases r.imageTypes with
    | none => exact ih m h
    | some ts => exact ih _ (foldl_bump_keys_nodup ts m h)

theorem mergedImageTypes_keys_nodup (results : List PageResult) :
    ((mergedImageTypes results).map Prod.fst).Nodup := by
  unfold mergedImageTypes
  exact foldl_merge_keys_nodup results [] (by simp)

theorem mostCommonImageType_eq_lastTiedMaxKey {m : List (JStr × Nat)}
    (hN : (m.map Prod.fst).Nodup) : mostCommonImageType m = lastTiedMaxKey m := by
  have h1 := keyFold_eq_mcStepFold hN m (fun p hp => hp) (jstr "unknown")
  unfold mostCommonImageType
  rw [h1]
  rcases mcStep_fold_spec m (jstr "unknown") (objGet m (jstr "unknown")) with
    ⟨hfold, hall⟩ | ⟨r, hlast, hfold, _⟩
  · rw [hfold]
    cases hm : m with
    | nil => simp [lastTiedMaxKey, lastTiedMax]
    | cons q t =>
      exfalso
      subst hm
      cases ho : objGet (q :: t) (jstr "unknown") with
      | none =>
        have := hall q (List.mem_cons_self q t)
        rw [ho] at this
        simp [jsGtOpt] at this
      | some c₀ =>
        have hmem := mem_of_objGet_eq_some ho
        have := hall _ hmem
        rw [ho] at this
        simp [jsGtOpt] at this
  · rw [hfold]
    simp [lastTiedMaxKey, hlast]

/-- C2 amended: `most_common_image_type` is the histogram key with the
highest count, ties broken by whichever key the reduction iteration
encounters **last** (not first): the source's `reduce` keeps the
accumulator only when its count is strictly greater. -/
theorem most_common_is_last_tied_max (results : List PageResult) :
    (calculateDomainAnalysis results).most_common_image_type
      = lastTiedMaxKey (calculateDomainAnalysis results).image_types := by
  have h := mostCommonImageType_eq_lastTiedMaxKey (mergedImageTypes_keys_nodup results)
  simpa [calculateDomainAnalysis] using h

/-- C2 counterexample: two pages contributing `png` then `jpeg`, one
image each, tie at count 1 with `png` encountered first — the reduction
returns `jpeg`, the tied key encountered last. -/
theorem most_common_tie_is_not_first_key :
    (calculateDomainAnalysis
      [{ url := jstr "http://s.com/", statusCode := 200, totalImagesFound := some 1,
         imagesAnalyzed := some 1, imagesWithoutAltCount := some 0,
         totalImageSize := some 0, imageTypes := some [(jstr "png", 1)] },
       { url := jstr "http://s.com/a", statusCode := 200, totalImagesFound := some 1,
         imagesAnalyzed := some 1, imagesWithoutAltCount := some 0,
         totalImageSize := some 0, imageTypes := some [(jstr "jpeg", 1)] }]).image_types
      = [(jstr "png", 1), (jstr "jpeg", 1)]
    ∧ (calculateDomainAnalysis
      [{ url := jstr "http://s.com/", statusCode := 200, totalImagesFound := some 1,
         imagesAnalyzed := some 1, imagesWithoutAltCount := some 0,
         totalImageSize := some 0, imageTypes := some [(jstr "png", 1)] },
       { url := jstr "http://s.com/a", statusCode := 200, totalImagesFound := some 1,
         imagesAnalyzed := some 1, imagesWithoutAltCount := some 0,
         totalImageSize := some 0, imageTypes := some [(jstr "jpeg", 1)] }]).most_common_image_type
      = jstr "jpeg"
    ∧ jstr "jpeg" ≠ jstr "png" := by
  refine ⟨?_, ?_, ?_⟩ <;> decide

/-! ### Count invariants of `analyzeImages` -/

theorem processImage_images_length (resolveRel : JStr → JStr → Option JStr)
    (head : JStr → HeadOutcome) (baseUrl : JStr) (inclSize inclAlt : Bool)
    (st : ImagesState) (i : Nat) (e : ImgElement) :
    (processImage resolveRel head baseUrl inclSize inclAlt st i e).images.length
      ≤ st.images.length + 1 := by
  unfold processImage
  by_cases hsrc : e.src = []
  · simp [hsrc]
  · simp only [hsrc, if_false]
    cases resolveFullUrl resolveRel baseUrl e.src with
    | none => simp
    | some fullUrl =>
      by_cases hs : inclSize = true
      · simp only [hs, if_true]
        cases detectImageInfo head fullUrl with
        | ok info => simp
        | error msg => simp
      · simp only [Bool.not_eq_true] at hs
        simp [hs]

theorem foldl_processImage_length (resolveRel : JStr → JStr → Option JStr)
    (head : JStr → HeadOutcome) (baseUrl : JStr) (inclSize inclAlt : Bool) :
    ∀ (l : List (Nat × ImgElement)) (st : ImagesState),
      ((l.foldl (fun s p => processImage resolveRel head baseUrl inclSize inclAlt s p.1 p.2)
          st).images.length)
        ≤ st.images.length + l.length := by
  intro l
  induction l with
  | nil => intro st; simp
  | cons p t ih =>
    intro st
    simp only [List.foldl_cons, List.length_cons]
    calc ((t.foldl (fun s p => processImage resolveRel head baseUrl inclSize inclAlt s p.1 p.2)
            (processImage resolveRel head baseUrl inclSize inclAlt st p.1 p.2)).images.length)
        ≤ (processImage resolveRel head baseUrl inclSize inclAlt st p.1 p.2).images.length
            + t.length := ih _
      _ ≤ st.images.length + 1 + t.length := by
          have := processImage_images_length resolveRel head baseUrl inclSize inclAlt st p.1 p.2
          omega
      _ = st.images.length + (t.length + 1) := by omega

/-- C5: for every PageResult produced by the Page Analyzer,
`imagesWithAltCount + imagesWithoutAltCount = imagesAnalyzed` and
`imagesAnalyzed ≤ totalImagesFound`, where `imagesAnalyzed` is the length
of the `images` sequence and `totalImagesFound` the number of `<img>`
elements carrying a `src` attribute. -/
theorem analyzeImages_count_invariants (resolveRel : JStr → JStr → Option JStr)
    (head : JStr → HeadOutcome) (elems : List ImgElement) (baseUrl : JStr)
    (maxImagesPerPage : Int) (inclSize inclAlt : Bool) :
    (analyzeImages resolveRel head elems baseUrl maxImagesPerPage inclSize inclAlt).imagesWithAltCount
        + ((analyzeImages resolveRel head elems baseUrl maxImagesPerPage inclSize inclAlt).imagesWithoutAltCount : Int)
      = ((analyzeImages resolveRel head elems baseUrl maxImagesPerPage inclSize inclAlt).imagesAnalyzed : Int)
    ∧ (analyzeImages resolveRel head elems baseUrl maxImagesPerPage inclSize inclAlt).imagesAnalyzed
      ≤ (analyzeImages resolveRel head elems baseUrl maxImagesPerPage inclSize inclAlt).totalImagesFound
    ∧ (analyzeImages resolveRel head elems baseUrl maxImagesPerPage inclSize inclAlt).imagesAnalyzed
      = (analyzeImages resolveRel head elems baseUrl maxImagesPerPage inclSize inclAlt).images.length
    ∧ (analyzeImages resolveRel head elems baseUrl maxImagesPerPage inclSize inclAlt).totalImagesFound
      = elems.length := by
  refine ⟨?_, ?_, ?_, ?_⟩
  · simp [analyzeImages]
  · have hfold := foldl_processImage_length resolveRel head baseUrl inclSize inclAlt
      ((elems.take (if maxImagesPerPage = -1 then elems.length
        else (min (elems.length : Int) maxImagesPerPage).toNat)).enum) {}
    simp only [analyzeImages]
    have henum : ((elems.take (if maxImagesPerPage = -1 then elems.length
        else (min (elems.length : Int) maxImagesPerPage).toNat)).enum).length
        ≤ elems.length := by
      rw [List.enum_length, List.length_take]
      exact min_le_right _ _
    simp at hfold
    omega
  · simp [analyzeImages]
  · simp [analyzeImages]

/-! ### Data-URI handling of `detectImageInfo` -/

theorem strStartsWith_append_self (p s : JStr) : strStartsWith (p ++ s) p = true := by
  induction p with
  | nil => simp [strStartsWith]
  | cons c t ih => simp [strStartsWith, ih]

theorem chSplit_no_sep {c : Char} {l : JStr} (h : c ∉ l) : chSplit c l = [l] := by
  induction l with
  | nil => rfl
  | cons a t ih =>
    have hac : ¬ (a = c) := fun hc => h (hc ▸ List.mem_cons_self a t)
    have ht : c ∉ t := fun hc => h (List.mem_cons_of_mem _ hc)
    simp [chSplit, hac, ih ht]

theorem chSplit_append_cons {c : Char} {l : JStr} (d : JStr) (h : c ∉ l) :
    chSplit c (l ++ c :: d) = l :: chSplit c d := by
  induction l with
  | nil => simp [chSplit]
  | cons a t ih =>
    have hac : ¬ (a = c) := fun hc => h (hc ▸ List.mem_cons_self a t)
    have ht : c ∉ t := fun hc => h (List.mem_cons_of_mem _ hc)
    simp [chSplit, hac, ih ht]

/-- C9: a data-URI image source with declared MIME `image/png` and a
base64 payload `d` (base64 characters never include a comma) yields
content type `image/png`, `sizeInBytes = round(length(d) * 3 / 4)`, and
success status 200. -/
theorem dataUri_png_detectImageInfo (head : JStr → HeadOutcome) (d : JStr)
    (h : ',' ∉ d) :
    detectImageInfo head (jstr "data:image/png;base64," ++ d)
      = .ok { contentType := jstr "image/png"
              sizeInBytes := (jsRound (((d.length : ℚ) * 3) / 4)).toNat
              sizeInKb := jsKb ((jsRound (((d.length : ℚ) * 3) / 4)).toNat)
              statusCode := 200 } := by
  have hsplit1 : jstr "data:image/png;base64," = jstr "data:" ++ jstr "image/png;base64," := by
    decide
  have hpre : strStartsWith (jstr "data:image/png;base64," ++ d) (jstr "data:") = true := by
    rw [hsplit1, List.append_assoc]
    exact strStartsWith_append_self _ _
  have hsplit2 : jstr "data:image/png;base64," ++ d
      = jstr "data:image/png;base64" ++ ',' :: d := by
    have : jstr "data:image/png;base64," = jstr "data:image/png;base64" ++ [','] := by decide
    rw [this, List.append_assoc, List.singleton_append]
  have hnoc : ',' ∉ jstr "data:image/png;base64" := by decide
  have hchs : chSplit ',' (jstr "data:image/png;base64," ++ d)
      = [jstr "data:image/png;base64", d] := by
    rw [hsplit2, chSplit_append_cons d hnoc, chSplit_no_sep h]
  have hmime : regexDataMime (jstr "data:image/png;base64") = some (jstr "image/png") := by
    decide
  simp [detectImageInfo, hpre, hchs, hmime]

theorem dataUri_png_detectImageInfo_witness :
    detectImageInfo (fun _ => HeadOutcome.err none []) (jstr "data:image/png;base64,AAAA")
      = .ok { contentType := jstr "image/png", sizeInBytes := 3, sizeInKb := jsKb 3,
              statusCode := 200 } := by
  have h := dataUri_png_detectImageInfo (fun _ => HeadOutcome.err none []) (jstr "AAAA")
    (by decide)
  have he : jstr "data:image/png;base64," ++ jstr "AAAA"
      = jstr "data:image/png;base64,AAAA" := by decide
  have hlen : (jstr "AAAA").length = 4 := by decide
  have h3 : (jsRound ((((jstr "AAAA").length : ℚ) * 3) / 4)).toNat = 3 := by
    rw [hlen]
    norm_num [jsRound]
    rfl
  rw [he] at h
  rw [h, h3]

/-! ### Per-image metadata-fetch failure handling -/

/-- C4 amended: when the per-image metadata fetch fails, `detectImageInfo`
catches the failure itself and returns (without throwing) a record with
the extension-sniffed content type, size 0, and the failure status code
(500 when no HTTP response status is available); the enclosing page
analysis completes and the resulting ImageRecord carries **no** error
message (the `error` field is only set when `detectImageInfo` itself
throws, which the fetch-failure path does not). -/
theorem imageFetchFailure_record (resolveRel : JStr → JStr → Option JStr)
    (head : JStr → HeadOutcome) (imageUrl baseUrl : JStr) (responseStatus : Option Int)
    (msg : JStr) (inclAlt : Bool)
    (hdata : strStartsWith imageUrl (jstr "data:") = false)
    (hhttp : strStartsWith imageUrl (jstr "http") = true)
    (hfail : head imageUrl = .err responseStatus msg) :
    detectImageInfo head imageUrl
      = .ok { contentType := detectContentTypeFromUrl imageUrl, sizeInBytes := 0,
              sizeInKb := 0, statusCode := responseStatus.getD 500 }
    ∧ (analyzeImages resolveRel head [{ src := imageUrl }] baseUrl (-1) true inclAlt).imagesAnalyzed
        = 1
    ∧ (analyzeImages resolveRel head [{ src := imageUrl }] baseUrl (-1) true inclAlt).images.map
        (fun r => (r.error, r.contentType, r.sizeInBytes, r.statusCode))
      = [(none, detectContentTypeFromUrl imageUrl, 0, responseStatus.getD 500)] := by
  have hne : imageUrl ≠ [] := by
    intro hnil
    rw [hnil] at hhttp
    simp [strStartsWith, jstr] at hhttp
  have hdet : detectImageInfo head imageUrl
      = .ok { contentType := detectContentTypeFromUrl imageUrl, sizeInBytes := 0,
              sizeInKb := 0, statusCode := responseStatus.getD 500 } := by
    simp [detectImageInfo, hdata, hfail]
  refine ⟨hdet, ?_, ?_⟩
  · simp [analyzeImages, processImage, resolveFullUrl, hhttp, hne, hdet]
  · simp [analyzeImages, processImage, resolveFullUrl, hhttp, hne, hdet]

theorem imageFetchFailure_record_witness :
    detectImageInfo (fun _ => HeadOutcome.err none (jstr "socket hang up"))
        (jstr "http://a.com/x.png")
      = .ok { contentType := detectContentTypeFromUrl (jstr "http://a.com/x.png"),
              sizeInBytes := 0, sizeInKb := 0,
              statusCode := (none : Option Int).getD 500 } := by
  exact (imageFetchFailure_record (fun _ _ => none)
    (fun _ => HeadOutcome.err none (jstr "socket hang up")) (jstr "http://a.com/x.png")
    (jstr "http://a.com/") none (jstr "socket hang up") true (by decide) (by decide) rfl).1

/-- C4 counterexample: a failing metadata fetch (network error, no
response status) yields an ImageRecord with the sniffed type, size 0 and
status 500, but with `error = none` — no error message is recorded on
the record, contrary to the claim. -/
theorem imageFetchFailure_no_error_recorded :
    ((analyzeImages (fun _ _ => none)
        (fun _ => HeadOutcome.err none (jstr "getaddrinfo ENOTFOUND a.com"))
        [{ src := jstr "http://a.com/x.png" }] (jstr "http://a.com/") (-1) true true).images.map
      (fun r => (r.error, r.contentType, r.sizeInBytes, r.statusCode)))
      = [(none, jstr "image/png", 0, (500 : Int))] := by
  decide

/-! ### Frontier lemmas -/

theorem enqueueLink_spec (env : CrawlEnv) (baseDomain baseUrl : JStr) (s : CrawlState)
    (link : JStr) :
    let s' := enqueueLink env baseDomain baseUrl s link
    s'.visited = s.visited ∧ s'.results = s.results
    ∧ s'.processedCount = s.processedCount ∧ s'.fetched = s.fetched
    ∧ s'.pagesAnalyzedCount = s.pagesAnalyzedCount
    ∧ (s'.queue = s.queue
        ∨ ∃ nl, s'.queue = s.queue ++ [nl] ∧ nl ∉ s.visited ∧ nl ∉ s.queue
            ∧ ∃ f, nl = env.normalize f) := by
  unfold enqueueLink
  cases hf : (if strStartsWith link (jstr "http") then some link
      else if strStartsWith link (jstr "/") then some (baseDomain ++ link)
      else env.resolveRel link baseUrl) with
  | none => simp
  | some fullUrl =>
    by_cases hc : strStartsWith (env.normalize fullUrl) baseDomain
        ∧ env.normalize fullUrl ∉ s.visited ∧ env.normalize fullUrl ∉ s.queue
    · simp only [hc, if_true]
      refine ⟨rfl, rfl, rfl, rfl, rfl, Or.inr ⟨env.normalize fullUrl, rfl, hc.2.1, hc.2.2,
        fullUrl, rfl⟩⟩
    · simp [hc]

theorem enqueueLinks_fields (env : CrawlEnv) (baseUrl : JStr) (links : List JStr) :
    ∀ s : CrawlState,
      (enqueueLinks env baseUrl s links).visited = s.visited
      ∧ (enqueueLinks env baseUrl s links).results = s.results
      ∧ (enqueueLinks env baseUrl s links).processedCount = s.processedCount
      ∧ (enqueueLinks env baseUrl s links).fetched = s.fetched
      ∧ (enqueueLinks env baseUrl s links).pagesAnalyzedCount = s.pagesAnalyzedCount := by
  induction links with
  | nil => intro s; exact ⟨rfl, rfl, rfl, rfl, rfl⟩
  | cons l t ih =>
    intro s
    have h1 := enqueueLink_spec env (originOf baseUrl) baseUrl s l
    have h2 := ih (enqueueLink env (originOf baseUrl) baseUrl s l)
    unfold enqueueLinks at h2 ⊢
    simp only [List.foldl_cons]
    exact ⟨h2.1.trans h1.1, h2.2.1.trans h1.2.1, h2.2.2.1.trans h1.2.2.1,
      h2.2.2.2.1.trans h1.2.2.2.1, h2.2.2.2.2.trans h1.2.2.2.2.1⟩

theorem enqueueLinks_queue_inv (env : CrawlEnv)
    (hidem : ∀ u, env.normalize (env.normalize u) = env.normalize u)
    (baseUrl : JStr) (links : List JStr) :
    ∀ s : CrawlState, s.queue.Nodup → (∀ v ∈ s.queue, v ∉ s.visited) →
      (∀ v ∈ s.queue, env.normalize v = v) →
      (enqueueLinks env baseUrl s links).queue.Nodup
      ∧ (∀ v ∈ (enqueueLinks env baseUrl s links).queue, v ∉ s.visited)
      ∧ (∀ v ∈ (enqueueLinks env baseUrl s links).queue, env.normalize v = v) := by
  induction links with
  | nil => intro s h1 h2 h3; exact ⟨h1, h2, h3⟩
  | cons l t ih =>
    intro s h1 h2 h3
    have hsp := enqueueLink_spec env (originOf baseUrl) baseUrl s l
    set s' := enqueueLink env (originOf baseUrl) baseUrl s l with hs'
    have hvis : s'.visited = s.visited := hsp.1
    have hstep : s'.queue.Nodup ∧ (∀ v ∈ s'.queue, v ∉ s.visited)
        ∧ (∀ v ∈ s'.queue, env.normalize v = v) := by
      rcases hsp.2.2.2.2.2 with hsame | ⟨nl, hq, hnv, hnq, f, hnl⟩
      · rw [hsame]; exact ⟨h1, h2, h3⟩
      · rw [hq]
        refine ⟨?_, ?_, ?_⟩
        · exact List.Nodup.append h1 (List.nodup_singleton nl)
            (by simpa [List.disjoint_singleton] using hnq)
        · intro v hv
          rcases List.mem_append.mp hv with h | h
          · exact h2 v h
          · rw [List.mem_singleton.mp h]; exact hnv
        · intro v hv
          rcases List.mem_append.mp hv with h | h
          · exact h3 v h
          · rw [List.mem_singleton.mp h, hnl]; exact hidem f
    have := ih s' hstep.1 (by rw [← hvis] at hstep; exact hstep.2.1) hstep.2.2
    unfold enqueueLinks at this ⊢
    simp only [List.foldl_cons]
    rw [hvis] at this
    exact ⟨this.1, this.2.1, this.2.2⟩

theorem actorCrawlLoop_succ_nil (env : CrawlEnv) (n : Nat) (st : CrawlState)
    (h : st.queue = []) : actorCrawlLoop env (n + 1) st = st := by
  simp [actorCrawlLoop, h]

theorem actorCrawlLoop_succ_stop (env : CrawlEnv) (n : Nat) (st : CrawlState)
    (u : JStr) (rest : List JStr) (h : st.queue = u :: rest)
    (h2 : ¬ st.processedCount < env.effectiveMaxPages) :
    actorCrawlLoop env (n + 1) st = st := by
  simp [actorCrawlLoop, h, h2]

theorem actorCrawlLoop_succ_skip (env : CrawlEnv) (n : Nat) (st : CrawlState)
    (u : JStr) (rest : List JStr) (h : st.queue = u :: rest)
    (h2 : st.processedCount < env.effectiveMaxPages) (h3 : u ∈ st.visited) :
    actorCrawlLoop env (n + 1) st = actorCrawlLoop env n { st with queue := rest } := by
  simp [actorCrawlLoop, h, h2, h3]

theorem actorCrawlLoop_succ_ok_links (env : CrawlEnv) (n : Nat) (st : CrawlState)
    (u : JStr) (rest : List JStr) (status : Int) (page : PageData)
    (h : st.queue = u :: rest) (h2 : st.processedCount < env.effectiveMaxPages)
    (h3 : u ∉ st.visited) (hw : env.world u = .ok status page)
    (hlinks : env.crawlUrls ∧ page.internalLinks ≠ []) :
    actorCrawlLoop env (n + 1) st =
      actorCrawlLoop env n
        { enqueueLinks env u
            { st with
              queue := rest
              visited := st.visited ++ [u]
              fetched := st.fetched ++ [u]
              results := st.results ++ [successResult u status page]
              pagesAnalyzedCount := st.pagesAnalyzedCount + 1 }
            page.internalLinks with
          processedCount :=
            (enqueueLinks env u
              { st with
                queue := rest
                visited := st.visited ++ [u]
                fetched := st.fetched ++ [u]
                results := st.results ++ [successResult u status page]
                pagesAnalyzedCount := st.pagesAnalyzedCount + 1 }
              page.internalLinks).processedCount + 1 } := by
  simp [actorCrawlLoop, h, h2, h3, hw, hlinks.1, hlinks.2]

theorem actorCrawlLoop_succ_ok_nolinks (env : CrawlEnv) (n : Nat) (st : CrawlState)
    (u : JStr) (rest : List JStr) (status : Int) (page : PageData)
    (h : st.queue = u :: rest) (h2 : st.processedCount < env.effectiveMaxPages)
    (h3 : u ∉ st.visited) (hw : env.world u = .ok status page)
    (hlinks : ¬ (env.crawlUrls ∧ page.internalLinks ≠ [])) :
    actorCrawlLoop env (n + 1) st =
      actorCrawlLoop env n
        { st with
          queue := rest
          visited := st.visited ++ [u]
          fetched := st.fetched ++ [u]
          results := st.results ++ [successResult u status page]
          pagesAnalyzedCount := st.pagesAnalyzedCount + 1
          processedCount := st.processedCount + 1 } := by
  by_cases hc : env.crawlUrls = true
  · have hl : ¬ page.internalLinks ≠ [] := fun hne => hlinks ⟨hc, hne⟩
    simp [actorCrawlLoop, h, h2, h3, hw, hc, not_not.mp hl]
  · simp [actorCrawlLoop, h, h2, h3, hw, hc]

theorem actorCrawlLoop_succ_err (env : CrawlEnv) (n : Nat) (st : CrawlState)
    (u : JStr) (rest : List JStr) (rs : Option Int) (code : AxiosErrCode) (msg : JStr)
    (h : st.queue = u :: rest) (h2 : st.processedCount < env.effectiveMaxPages)
    (h3 : u ∉ st.visited) (hw : env.world u = .err rs code msg) :
    actorCrawlLoop env (n + 1) st =
      actorCrawlLoop env n
        { st with
          queue := rest
          visited := st.visited ++ [u]
          fetched := st.fetched ++ [u]
          results := st.results ++ [errorResultActor u rs code msg] } := by
  simp [actorCrawlLoop, h, h2, h3, hw]

/-- The frontier invariant of the `Actor.main` loop: attempted fetches
are pairwise distinct and recorded as visited, the queue has no
duplicates, queued URLs are unvisited, and every tracked URL is a
fixpoint of the normalizer. -/
def CrawlInv (env : CrawlEnv) (st : CrawlState) : Prop :=
  st.fetched.Nodup ∧ (∀ u ∈ st.fetched, u ∈ st.visited) ∧ st.queue.Nodup
  ∧ (∀ u ∈ st.queue, u ∉ st.visited) ∧ (∀ u ∈ st.fetched, env.normalize u = u)
  ∧ (∀ u ∈ st.queue, env.normalize u = u)

theorem actorCrawlLoop_inv (env : CrawlEnv)
    (hidem : ∀ u, env.normalize (env.normalize u) = env.normalize u) :
    ∀ (fuel : Nat) (st : CrawlState), CrawlInv env st →
      CrawlInv env (actorCrawlLoop env fuel st) := by
  intro fuel
  induction fuel with
  | zero => intro st h; exact h
  | succ n ih =>
    intro st h
    obtain ⟨hfN, hfv, hqN, hqv, hfF, hqF⟩ := h
    cases hq : st.queue with
    | nil =>
      rw [actorCrawlLoop_succ_nil env n st hq]
      exact ⟨hfN, hfv, hqN, hqv, hfF, hqF⟩
    | cons u rest =>
      by_cases h2 : st.processedCount < env.effectiveMaxPages
      · have hu : u ∉ st.visited := hqv u (hq ▸ List.mem_cons_self u rest)
        have hqNr : rest.Nodup ∧ u ∉ rest := by
          have := hq ▸ hqN
          exact ⟨(List.nodup_cons.mp this).2, (List.nodup_cons.mp this).1⟩
        have hufix : env.normalize u = u := hqF u (hq ▸ List.mem_cons_self u rest)
        have hbase : ∀ (moreResults : List PageResult) (morePages : Nat),
            CrawlInv env
              { st with
                queue := rest
                visited := st.visited ++ [u]
                fetched := st.fetched ++ [u]
                results := st.results ++ moreResults
                pagesAnalyzedCount := st.pagesAnalyzedCount + morePages } := by
          intro moreResults morePages
          refine ⟨?_, ?_, hqNr.1, ?_, ?_, ?_⟩
          · have hufetched : u ∉ st.fetched := fun hin => hu (hfv u hin)
            exact List.Nodup.append hfN (List.nodup_singleton u)
              (by simpa [List.disjoint_singleton] using hufetched)
          · intro v hv
            rcases List.mem_append.mp hv with hvin | hvin
            · exact List.mem_append.mpr (Or.inl (hfv v hvin))
            · exact List.mem_append.mpr (Or.inr hvin)
          · intro v hv hvis
            rcases List.mem_append.mp hvis with hvin | hvin
            · exact hqv v (hq ▸ List.mem_cons_of_mem u hv) hvin
            · exact hqNr.2 (List.mem_singleton.mp hvin ▸ hv)
          · intro v hv
            rcases List.mem_append.mp hv with hvin | hvin
            · exact hfF v hvin
            · rw [List.mem_singleton.mp hvin]; exact hufix
          · intro v hv
            exact hqF v (hq ▸ List.mem_cons_of_mem u hv)
        by_cases h3 : u ∈ st.visited
        · exact absurd h3 hu
        · cases hw : env.world u with
          | ok status page =>
            by_cases hlinks : env.crawlUrls ∧ page.internalLinks ≠ []
            · rw [actorCrawlLoop_succ_ok_links env n st u rest status page hq h2 h3 hw hlinks]
              apply ih
              set st₃ : CrawlState :=
                { st with
                  queue := rest
                  visited := st.visited ++ [u]
                  fetched := st.fetched ++ [u]
                  results := st.results ++ [successResult u status page]
                  pagesAnalyzedCount := st.pagesAnalyzedCount + 1 } with hst₃
              set E := enqueueLinks env u st₃ page.internalLinks with hE
              have hinv₃ : CrawlInv env st₃ := hbase [successResult u status page] 1
              obtain ⟨h₃fN, h₃fv, h₃qN, h₃qv, h₃fF, h₃qF⟩ := hinv₃
              have hql := enqueueLinks_queue_inv env hidem u page.internalLinks st₃
                h₃qN h₃qv h₃qF
              have hfields := enqueueLinks_fields env u page.internalLinks st₃
              rw [← hE] at hql hfields
              refine ⟨?_, ?_, ?_, ?_, ?_, ?_⟩
              · show E.fetched.Nodup
                rw [hfields.2.2.2.1]; exact h₃fN
              · show ∀ v ∈ E.fetched, v ∈ E.visited
                rw [hfields.2.2.2.1, hfields.1]; exact h₃fv
              · show E.queue.Nodup
                exact hql.1
              · show ∀ v ∈ E.queue, v ∉ E.visited
                rw [hfields.1]; exact hql.2.1
              · show ∀ v ∈ E.fetched, env.normalize v = v
                rw [hfields.2.2.2.1]; exact h₃fF
              · show ∀ v ∈ E.queue, env.normalize v = v
                exact hql.2.2
            · rw [actorCrawlLoop_succ_ok_nolinks env n st u rest status page hq h2 h3 hw hlinks]
              apply ih
              exact hbase [successResult u status page] 1
          | err rs code msg =>
            rw [actorCrawlLoop_succ_err env n st u rest rs code msg hq h2 h3 hw]
            apply ih
            exact hbase [errorResultActor u rs code msg] 0
      · rw [actorCrawlLoop_succ_stop env n st u rest hq h2]
        exact ⟨hfN, hfv, hqN, hqv, hfF, hqF⟩

theorem actorCrawlLoop_processedCount_le (env : CrawlEnv) :
    ∀ (fuel : Nat) (st : CrawlState),
      st.processedCount ≤ env.effectiveMaxPages →
      (actorCrawlLoop env fuel st).processedCount ≤ env.effectiveMaxPages := by
  intro fuel
  induction fuel with
  | zero => intro st h; exact h
  | succ n ih =>
    intro st h
    cases hq : st.queue with
    | nil => rw [actorCrawlLoop_succ_nil env n st hq]; exact h
    | cons u rest =>
      by_cases h2 : st.processedCount < env.effectiveMaxPages
      · by_cases h3 : u ∈ st.visited
        · rw [actorCrawlLoop_succ_skip env n st u rest hq h2 h3]
          exact ih _ h
        · cases hw : env.world u with
          | ok status page =>
            by_cases hlinks : env.crawlUrls ∧ page.internalLinks ≠ []
            · rw [actorCrawlLoop_succ_ok_links env n st u rest status page hq h2 h3 hw hlinks]
              apply ih
              set st₃ : CrawlState :=
                { st with
                  queue := rest
                  visited := st.visited ++ [u]
                  fetched := st.fetched ++ [u]
                  results := st.results ++ [successResult u status page]
                  pagesAnalyzedCount := st.pagesAnalyzedCount + 1 } with hst₃
              set E := enqueueLinks env u st₃ page.internalLinks with hE
              have hfields := enqueueLinks_fields env u page.internalLinks st₃
              rw [← hE] at hfields
              show E.processedCount + 1 ≤ env.effectiveMaxPages
              rw [hfields.2.2.1]
              show st.processedCount + 1 ≤ env.effectiveMaxPages
              omega
            · rw [actorCrawlLoop_succ_ok_nolinks env n st u rest status page hq h2 h3 hw hlinks]
              apply ih
              show st.processedCount + 1 ≤ env.effectiveMaxPages
              omega
          | err rs code msg =>
            rw [actorCrawlLoop_succ_err env n st u rest rs code msg hq h2 h3 hw]
            exact ih _ h
      · rw [actorCrawlLoop_succ_stop env n st u rest hq h2]
        exact h

/-- C8 amended: in the `Actor.main` loop — where the seed is normalized
before it is enqueued and every discovered link is normalized before the
visited/queued checks — no URL (compared by normalized form) is ever
fetched twice, and the frontier queue never contains duplicate entries.
(The `/analyze-multi` loop seeds its queue with the raw start URL and
violates the normalized-form part; see the counterexample.) -/
theorem actor_no_url_fetched_twice (env : CrawlEnv) (startUrl : JStr) (fuel : Nat)
    (hidem : ∀ u, env.normalize (env.normalize u) = env.normalize u) :
    ((actorCrawlLoop env fuel (actorInit env startUrl)).fetched.map env.normalize).Nodup
    ∧ (actorCrawlLoop env fuel (actorInit env startUrl)).fetched.Nodup
    ∧ (actorCrawlLoop env fuel (actorInit env startUrl)).queue.Nodup := by
  have hinit : CrawlInv env (actorInit env startUrl) := by
    refine ⟨List.nodup_nil, ?_, List.nodup_singleton _, ?_, ?_, ?_⟩
    · intro u hu; simp [actorInit] at hu
    · intro u hu hvis; simp [actorInit] at hvis
    · intro u hu; simp [actorInit] at hu
    · intro u hu
      rw [List.mem_singleton.mp hu]
      exact hidem startUrl
  have hfin := actorCrawlLoop_inv env hidem fuel _ hinit
  obtain ⟨hfN, _, hqN, _, hfF, _⟩ := hfin
  have hmap : (actorCrawlLoop env fuel (actorInit env startUrl)).fetched.map env.normalize
      = (actorCrawlLoop env fuel (actorInit env startUrl)).fetched :=
    (List.map_congr_left hfF).trans (List.map_id _)
  refine ⟨?_, hfN, hqN⟩
  rw [hmap]
  exact hfN

theorem actor_no_url_fetched_twice_witness :
    (((actorCrawlLoop
        { world := fun _ => .ok 200 {}, normalize := fun u => u,
          resolveRel := fun _ _ => none, crawlUrls := true, maxPages := 2 }
        3 (actorInit
          { world := fun _ => .ok 200 {}, normalize := fun u => u,
            resolveRel := fun _ _ => none, crawlUrls := true, maxPages := 2 }
          (jstr "http://s.com/"))).fetched.map
      (fun u => u)).Nodup) := by
  exact (actor_no_url_fetched_twice
    { world := fun _ => .ok 200 {}, normalize := fun u => u,
      resolveRel := fun _ _ => none, crawlUrls := true, maxPages := 2 }
    (jstr "http://s.com/") 3 (fun _ => rfl)).1

/-- C8 counterexample: the `/analyze-multi` loop enqueues the raw start
URL; with a normalizer that strips fragments, a page whose fragment-form
seed links to its own normalized form is fetched twice under the same
normalized URL. -/
theorem multi_refetches_normalized_seed :
    ¬ (((multiCrawlLoop
        { world := fun u =>
            if u = jstr "http://s.com/#x" then
              .ok 200 { internalLinks := [jstr "http://s.com/"] }
            else .ok 200 {},
          normalize := fun u => u.takeWhile (· ≠ '#'),
          resolveRel := fun _ _ => none, crawlUrls := true, maxPages := 5 }
        5 (multiInit (jstr "http://s.com/#x"))).fetched.map
      (fun u => u.takeWhile (· ≠ '#'))).Nodup)
    ∧ (multiCrawlLoop
        { world := fun u =>
            if u = jstr "http://s.com/#x" then
              .ok 200 { internalLinks := [jstr "http://s.com/"] }
            else .ok 200 {},
          normalize := fun u => u.takeWhile (· ≠ '#'),
          resolveRel := fun _ _ => none, crawlUrls := true, maxPages := 5 }
        5 (multiInit (jstr "http://s.com/#x"))).fetched.length = 2 := by
  refine ⟨?_, ?_⟩ <;> decide

/-- C7: a page fetch that times out (an `ETIMEDOUT` error with no HTTP
response) yields a result entry carrying the error message and status
code 408, and the loop continues on the remaining queue with the page
budget untouched — the crawl does not abort. -/
theorem timeout_page_recorded_crawl_continues (env : CrawlEnv) (st : CrawlState)
    (u : JStr) (rest : List JStr) (msg : JStr) (fuel : Nat)
    (hq : st.queue = u :: rest) (h3 : u ∉ st.visited)
    (h2 : st.processedCount < env.effectiveMaxPages)
    (hw : env.world u = .err none .ETIMEDOUT msg) :
    (errorResultActor u none .ETIMEDOUT msg).error = some msg
    ∧ (errorResultActor u none .ETIMEDOUT msg).statusCode = 408
    ∧ actorCrawlLoop env (fuel + 1) st =
        actorCrawlLoop env fuel
          { st with
            queue := rest
            visited := st.visited ++ [u]
            fetched := st.fetched ++ [u]
            results := st.results ++ [errorResultActor u none .ETIMEDOUT msg] } := by
  exact ⟨rfl, rfl, actorCrawlLoop_succ_err env fuel st u rest none .ETIMEDOUT msg hq h2 h3 hw⟩

theorem timeout_page_recorded_crawl_continues_witness :
    (errorResultActor (jstr "http://s.com/") none .ETIMEDOUT
      (jstr "timeout of 30000ms exceeded")).error
        = some (jstr "timeout of 30000ms exceeded")
    ∧ (errorResultActor (jstr "http://s.com/") none .ETIMEDOUT
      (jstr "timeout of 30000ms exceeded")).statusCode = 408
    ∧ actorCrawlLoop
        { world := fun _ => .err none .ETIMEDOUT (jstr "timeout of 30000ms exceeded"),
          normalize := fun u => u, resolveRel := fun _ _ => none,
          crawlUrls := true, maxPages := 5 }
        1 { queue := [jstr "http://s.com/"] } =
      actorCrawlLoop
        { world := fun _ => .err none .ETIMEDOUT (jstr "timeout of 30000ms exceeded"),
          normalize := fun u => u, resolveRel := fun _ _ => none,
          crawlUrls := true, maxPages := 5 }
        0 { ({ queue := [jstr "http://s.com/"] } : CrawlState) with
            queue := []
            visited := ({ queue := [jstr "http://s.com/"] } : CrawlState).visited
              ++ [jstr "http://s.com/"]
            fetched := ({ queue := [jstr "http://s.com/"] } : CrawlState).fetched
              ++ [jstr "http://s.com/"]
            results := ({ queue := [jstr "http://s.com/"] } : CrawlState).results
              ++ [errorResultActor (jstr "http://s.com/") none .ETIMEDOUT
                    (jstr "timeout of 30000ms exceeded")] } := by
  exact timeout_page_recorded_crawl_continues
    { world := fun _ => .err none .ETIMEDOUT (jstr "timeout of 30000ms exceeded"),
      normalize := fun u => u, resolveRel := fun _ _ => none,
      crawlUrls := true, maxPages := 5 }
    { queue := [jstr "http://s.com/"] } (jstr "http://s.com/") [] _ 0 rfl
    (by decide) (by decide) rfl

/-- C1 amended: when a page fetch fails, the `Actor.main` loop appends a
degraded PageResult carrying the error message but does **not**
increment `processedCount` (the increment sits at the end of the `try`
block only).  Consequently `processedCount` — the number of successfully
analyzed pages — never exceeds `effectiveMaxPages`, while the number of
pages on which a fetch is attempted is not bounded by it (see the
counterexample). -/
theorem failed_fetch_not_counted :
    (∀ (env : CrawlEnv) (st : CrawlState) (u : JStr) (rest : List JStr)
        (rs : Option Int) (code : AxiosErrCode) (msg : JStr) (fuel : Nat),
      st.queue = u :: rest → u ∉ st.visited →
      st.processedCount < env.effectiveMaxPages →
      env.world u = .err rs code msg →
      (errorResultActor u rs code msg).error = some msg
      ∧ actorCrawlLoop env (fuel + 1) st =
          actorCrawlLoop env fuel
            { st with
              queue := rest
              visited := st.visited ++ [u]
              fetched := st.fetched ++ [u]
              results := st.results ++ [errorResultActor u rs code msg] })
    ∧ (∀ (env : CrawlEnv) (fuel : Nat) (startUrl : JStr),
        (actorCrawlLoop env fuel (actorInit env startUrl)).processedCount
          ≤ env.effectiveMaxPages) := by
  constructor
  · intro env st u rest rs code msg fuel hq h3 h2 hw
    exact ⟨rfl, actorCrawlLoop_succ_err env fuel st u rest rs code msg hq h2 h3 hw⟩
  · intro env fuel startUrl
    exact actorCrawlLoop_processedCount_le env fuel (actorInit env startUrl)
      (Nat.zero_le _)

theorem failed_fetch_not_counted_witness :
    (errorResultActor (jstr "http://s.com/a") none .otherCode (jstr "boom")).error
      = some (jstr "boom")
    ∧ (actorCrawlLoop
        { world := fun _ => .err none .otherCode (jstr "boom"),
          normalize := fun u => u, resolveRel := fun _ _ => none,
          crawlUrls := true, maxPages := 2 }
        7 (actorInit
          { world := fun _ => .err none .otherCode (jstr "boom"),
            normalize := fun u => u, resolveRel := fun _ _ => none,
            crawlUrls := true, maxPages := 2 }
          (jstr "http://s.com/a"))).processedCount ≤ 2 := by
  refine ⟨?_, ?_⟩
  · exact (failed_fetch_not_counted.1
      { world := fun _ => .err none .otherCode (jstr "boom"),
        normalize := fun u => u, resolveRel := fun _ _ => none,
        crawlUrls := true, maxPages := 2 }
      { queue := [jstr "http://s.com/a"] } (jstr "http://s.com/a") [] none .otherCode
      (jstr "boom") 0 rfl (by decide) (by decide) rfl).1
  · exact failed_fetch_not_counted.2
      { world := fun _ => .err none .otherCode (jstr "boom"),
        normalize := fun u => u, resolveRel := fun _ _ => none,
        crawlUrls := true, maxPages := 2 }
      7 (jstr "http://s.com/a")

/-- C1 counterexample: with `maxPages = 2`, a seed page whose three
discovered links all get queued, of which two fail to fetch, leads to
four attempted fetches and four result entries — the failed attempts do
not increment `processedCount` (still 1 after the first failure), so the
number of attempted pages exceeds `maxPages`. -/
theorem attempts_exceed_maxPages :
    (actorCrawlLoop
        { world := fun u =>
            if u = jstr "http://s.com/" then
              .ok 200 { internalLinks := [jstr "http://s.com/a", jstr "http://s.com/b",
                jstr "http://s.com/c"] }
            else if u = jstr "http://s.com/c" then .ok 200 {}
            else .err none .otherCode (jstr "boom"),
          normalize := fun u => u, resolveRel := fun _ _ => none,
          crawlUrls := true, maxPages := 2 }
        10 (actorInit
          { world := fun u =>
              if u = jstr "http://s.com/" then
                .ok 200 { internalLinks := [jstr "http://s.com/a", jstr "http://s.com/b",
                  jstr "http://s.com/c"] }
              else if u = jstr "http://s.com/c" then .ok 200 {}
              else .err none .otherCode (jstr "boom"),
            normalize := fun u => u, resolveRel := fun _ _ => none,
            crawlUrls := true, maxPages := 2 }
          (jstr "http://s.com/"))).fetched.length = 4
    ∧ CrawlEnv.effectiveMaxPages
        { world := fun u =>
            if u = jstr "http://s.com/" then
              .ok 200 { internalLinks := [jstr "http://s.com/a", jstr "http://s.com/b",
                jstr "http://s.com/c"] }
            else if u = jstr "http://s.com/c" then .ok 200 {}
            else .err none .otherCode (jstr "boom"),
          normalize := fun u => u, resolveRel := fun _ _ => none,
          crawlUrls := true, maxPages := 2 } = 2
    ∧ (actorCrawlLoop
        { world := fun u =>
            if u = jstr "http://s.com/" then
              .ok 200 { internalLinks := [jstr "http://s.com/a", jstr "http://s.com/b",
                jstr "http://s.com/c"] }
            else if u = jstr "http://s.com/c" then .ok 200 {}
            else .err none .otherCode (jstr "boom"),
          normalize := fun u => u, resolveRel := fun _ _ => none,
          crawlUrls := true, maxPages := 2 }
        2 (actorInit
          { world := fun u =>
              if u = jstr "http://s.com/" then
                .ok 200 { internalLinks := [jstr "http://s.com/a", jstr "http://s.com/b",
                  jstr "http://s.com/c"] }
              else if u = jstr "http://s.com/c" then .ok 200 {}
              else .err none .otherCode (jstr "boom"),
            normalize := fun u => u, resolveRel := fun _ _ => none,
            crawlUrls := true, maxPages := 2 }
          (jstr "http://s.com/"))).results.length = 2
    ∧ (actorCrawlLoop
        { world := fun u =>
            if u = jstr "http://s.com/" then
              .ok 200 { internalLinks := [jstr "http://s.com/a", jstr "http://s.com/b",
                jstr "http://s.com/c"] }
            else if u = jstr "http://s.com/c" then .ok 200 {}
            else .err none .otherCode (jstr "boom"),
          normalize := fun u => u, resolveRel := fun _ _ => none,
          crawlUrls := true, maxPages := 2 }
        2 (actorInit
          { world := fun u =>
              if u = jstr "http://s.com/" then
                .ok 200 { internalLinks := [jstr "http://s.com/a", jstr "http://s.com/b",
                  jstr "http://s.com/c"] }
              else if u = jstr "http://s.com/c" then .ok 200 {}
              else .err none .otherCode (jstr "boom"),
            normalize := fun u => u, resolveRel := fun _ _ => none,
            crawlUrls := true, maxPages := 2 }
          (jstr "http://s.com/"))).processedCount = 1 := by
  refine ⟨?_, ?_, ?_, ?_⟩ <;> decide

/-- C10: the same-domain internal-link filter is a string-prefix test on
the page origin, not a host comparison: an anchor resolving to
`https://example.com.evil.com/x` — a different host whose string form
begins with the origin `https://example.com` — is retained by
`analyzeLinks` and enqueued by the Frontier. -/
theorem same_domain_filter_prefix_bypass (resolveRel : JStr → JStr → Option JStr)
    (env : CrawlEnv)
    (hnorm : env.normalize (jstr "https://example.com.evil.com/x")
      = jstr "https://example.com.evil.com/x") :
    ((analyzeLinks resolveRel [{ href := jstr "https://example.com.evil.com/x" }]
        (jstr "https://example.com/")).map LinkEntry.url
      = [jstr "https://example.com.evil.com/x"])
    ∧ hostnameOf (jstr "https://example.com.evil.com/x")
        ≠ hostnameOf (jstr "https://example.com/")
    ∧ (enqueueLinks env (jstr "https://example.com/") { }
        [jstr "https://example.com.evil.com/x"]).queue
      = [jstr "https://example.com.evil.com/x"] := by
  have h1 : strStartsWith (jstr "https://example.com.evil.com/x") (jstr "http") = true := by
    decide
  have h2 : originOf (jstr "https://example.com/") = jstr "https://example.com" := by
    decide
  have h3 : strStartsWith (jstr "https://example.com.evil.com/x")
      (jstr "https://example.com") = true := by decide
  refine ⟨?_, by decide, ?_⟩
  · have hne : jstr "https://example.com.evil.com/x" ≠ ([] : JStr) := by decide
    simp [analyzeLinks, resolveFullUrl, h1, h2, h3, hne, strTrim]
  · simp [enqueueLinks, enqueueLink, h1, h2, h3, hnorm]

theorem same_domain_filter_prefix_bypass_witness :
    (enqueueLinks
        { world := fun _ => .ok 200 {}, normalize := fun u => u,
          resolveRel := fun _ _ => none, crawlUrls := true, maxPages := 1 }
        (jstr "https://example.com/") { }
        [jstr "https://example.com.evil.com/x"]).queue
      = [jstr "https://example.com.evil.com/x"] := by
  exact (same_domain_filter_prefix_bypass (fun _ _ => none)
    { world := fun _ => .ok 200 {}, normalize := fun u => u,
      resolveRel := fun _ _ => none, crawlUrls := true, maxPages := 1 } rfl).2.2
